import Mathlib

/-!
# Verification of the user-service validation/update/projection core

Shallow embedding of the Go sources of `user-service`:
* `models/user.go`   — the `User` entity, request/response DTOs, `ToResponse`,
  `ValidateForRole`;
* `services/user_service.go` — the `UserService` store operations
  (`GetUserByID`, `GetUserByUsername`, `GetUserByEmail`, `CreateUser`,
  `UpdateUser`, `DeactivateUser`, `DeleteUser`, `CheckUserExists`,
  `ValidateRoleRequiredFields`, `BulkCreateUsers`);
* `utils` (password helpers) — `ValidatePassword`, `HashPassword`.

The GORM-backed database is modelled as a `List User`; GORM's default scope
(soft-deleted rows are invisible: every query gets `deleted_at IS NULL`) is
made explicit in each operation.  Timestamps are abstract ticks (`Nat`),
passed in as the current time where GORM would fill them automatically.
bcrypt is an abstract parameter `hash : String → String`, and the character
classification of Go's `unicode` package is an abstract parameter
`cc : CharClassifier` constrained only by the Unicode category-disjointness
laws (`LawfulCharClassifier`), which Go's classifiers satisfy.
`len(password)` (a byte length in Go) is `String.utf8ByteSize`.
-/

namespace UserService

/-- Embedding of `models.User` (models/user.go).  Pointer-typed optional Go
fields become `Option`; `gorm.DeletedAt` becomes `Option Nat` (the soft-delete
tombstone); `time.Time` values become abstract `Nat` ticks. -/
structure User where
  id : Nat
  createdAt : Nat
  updatedAt : Nat
  deletedAt : Option Nat
  -- Auth fields (required)
  username : String
  email : String
  passwordHash : String
  role : String
  isActive : Bool
  -- Basic profile fields (all optional)
  fullName : Option String := none
  phone : Option String := none
  address : Option String := none
  dateOfBirth : Option Nat := none
  gender : Option String := none
  profilePhoto : Option String := none
  -- Teacher fields
  employeeID : Option String := none
  specialization : Option String := none
  qualification : Option String := none
  experienceYears : Option Int := none
  hireDate : Option Nat := none
  salary : Option Float := none
  -- Student fields
  studentID : Option String := none
  classLevel : Option String := none
  academicYear : Option String := none
  parentName : Option String := none
  parentPhone : Option String := none
  parentEmail : Option String := none
  enrollmentDate : Option Nat := none
  graduationDate : Option Nat := none
  -- Optional fields for all roles
  emergencyContact : Option String := none
  emergencyPhone : Option String := none
  medicalConditions : Option String := none
  bloodType : Option String := none
  status : Option String := none
  additionalData : Option String := none
  deriving Repr

/-- Embedding of `models.CreateUserRequest` (models/user.go). -/
structure CreateUserRequest where
  username : String
  email : String
  password : String
  role : String
  fullName : Option String := none
  phone : Option String := none
  address : Option String := none
  dateOfBirth : Option Nat := none
  gender : Option String := none
  employeeID : Option String := none
  studentID : Option String := none
  classLevel : Option String := none
  academicYear : Option String := none
  parentName : Option String := none
  parentPhone : Option String := none
  specialization : Option String := none
  deriving Repr

/-- Embedding of `models.UpdateUserRequest` (models/user.go): a sparse update,
`none` meaning "field not supplied".  It has no fields for id, username,
email, password hash, role, active flag or timestamps. -/
structure UpdateUserRequest where
  fullName : Option String := none
  phone : Option String := none
  address : Option String := none
  dateOfBirth : Option Nat := none
  gender : Option String := none
  employeeID : Option String := none
  studentID : Option String := none
  classLevel : Option String := none
  academicYear : Option String := none
  parentName : Option String := none
  parentPhone : Option String := none
  specialization : Option String := none
  experienceYears : Option Int := none
  emergencyContact : Option String := none
  emergencyPhone : Option String := none
  medicalConditions : Option String := none
  status : Option String := none
  deriving Repr

/-- Embedding of `models.UserResponse` (models/user.go).  Note the struct has
no password-hash field, and also no salary, blood-type, additional-data or
deleted-at field. -/
structure UserResponse where
  id : Nat
  createdAt : Nat
  updatedAt : Nat
  username : String
  email : String
  role : String
  isActive : Bool
  fullName : Option String
  phone : Option String
  address : Option String
  dateOfBirth : Option Nat
  gender : Option String
  profilePhoto : Option String
  employeeID : Option String
  specialization : Option String
  qualification : Option String
  experienceYears : Option Int
  hireDate : Option Nat
  studentID : Option String
  classLevel : Option String
  academicYear : Option String
  parentName : Option String
  parentPhone : Option String
  parentEmail : Option String
  enrollmentDate : Option Nat
  graduationDate : Option Nat
  emergencyContact : Option String
  emergencyPhone : Option String
  medicalConditions : Option String
  status : Option String
  deriving Repr

/-- Embedding of `(*models.User).ToResponse` (models/user.go): field-by-field
copy into `UserResponse`. -/
def ToResponse (u : User) : UserResponse :=
  { id := u.id
    createdAt := u.createdAt
    updatedAt := u.updatedAt
    username := u.username
    email := u.email
    role := u.role
    isActive := u.isActive
    fullName := u.fullName
    phone := u.phone
    address := u.address
    dateOfBirth := u.dateOfBirth
    gender := u.gender
    profilePhoto := u.profilePhoto
    employeeID := u.employeeID
    specialization := u.specialization
    qualification := u.qualification
    experienceYears := u.experienceYears
    hireDate := u.hireDate
    studentID := u.studentID
    classLevel := u.classLevel
    academicYear := u.academicYear
    parentName := u.parentName
    parentPhone := u.parentPhone
    parentEmail := u.parentEmail
    enrollmentDate := u.enrollmentDate
    graduationDate := u.graduationDate
    emergencyContact := u.emergencyContact
    emergencyPhone := u.emergencyPhone
    medicalConditions := u.medicalConditions
    status := u.status }

/-- Embedding of `(*models.User).ValidateForRole` (models/user.go).
`none` is a nil Go error; `some msg` carries the error message.  The Go code
tests `u.Field == nil || *u.Field == ""` — an exact empty-string comparison,
with no whitespace trimming. -/
def ValidateForRole (u : User) : Option String :=
  match u.role with
  | "teacher" =>
    if u.employeeID = none ∨ u.employeeID.getD "" = "" then
      some "employee_id is required for teachers"
    else if u.specialization = none ∨ u.specialization.getD "" = "" then
      some "specialization is required for teachers"
    else none
  | "student" =>
    if u.studentID = none ∨ u.studentID.getD "" = "" then
      some "student_id is required for students"
    else if u.classLevel = none ∨ u.classLevel.getD "" = "" then
      some "class_level is required for students"
    else if u.parentName = none ∨ u.parentName.getD "" = "" then
      some "parent_name is required for students"
    else if u.parentPhone = none ∨ u.parentPhone.getD "" = "" then
      some "parent_phone is required for students"
    else none
  | _ => none

/-- Embedding of `(*UserService).ValidateRoleRequiredFields`
(services/user_service.go); its body is character-for-character the same
check as `ValidateForRole`. -/
def ValidateRoleRequiredFields (user : User) : Option String :=
  match user.role with
  | "teacher" =>
    if user.employeeID = none ∨ user.employeeID.getD "" = "" then
      some "employee_id is required for teachers"
    else if user.specialization = none ∨ user.specialization.getD "" = "" then
      some "specialization is required for teachers"
    else none
  | "student" =>
    if user.studentID = none ∨ user.studentID.getD "" = "" then
      some "student_id is required for students"
    else if user.classLevel = none ∨ user.classLevel.getD "" = "" then
      some "class_level is required for students"
    else if user.parentName = none ∨ user.parentName.getD "" = "" then
      some "parent_name is required for students"
    else if user.parentPhone = none ∨ user.parentPhone.getD "" = "" then
      some "parent_phone is required for students"
    else none
  | _ => none

/-- Presence of an optional string field as the code actually tests it:
non-null and non-empty, compared exactly (no trimming). -/
def fieldPresent : Option String → Prop
  | none => False
  | some s => s ≠ ""

instance : DecidablePred fieldPresent := fun o => by
  cases o with
  | none => exact .isFalse (fun h => h)
  | some s => exact inferInstanceAs (Decidable (s ≠ ""))

/-- Whitespace trimming of a character list: drop leading and trailing
whitespace. -/
def trimChars (cs : List Char) : List Char :=
  ((cs.dropWhile Char.isWhitespace).reverse.dropWhile Char.isWhitespace).reverse

/-- Presence as the SPEC's rule table words it ("present" if non-null and,
for strings, non-empty AFTER TRIMMING).  Stated from the spec's words, for
comparison against the source's check. -/
def specFieldPresent : Option String → Prop
  | none => False
  | some s => trimChars s.data ≠ []

instance : DecidablePred specFieldPresent := fun o => by
  cases o with
  | none => exact .isFalse (fun h => h)
  | some s => exact inferInstanceAs (Decidable (trimChars s.data ≠ []))

/-! ## Password utilities (utils package)

The character classification used by `utils.ValidatePassword` comes from
Go's `unicode` standard-library package — an external collaborator of this
repository, like bcrypt.  It is modelled as an abstract parameter
`cc : CharClassifier` carrying `unicode.IsUpper`, `IsLower`, `IsDigit`,
`IsPunct` and `IsSymbol` over the full `Char` range.  The only facts the
proofs use about it are the `LawfulCharClassifier` disjointness laws, which
hold of the real `unicode` package because every code point has exactly one
Unicode general category and Lu, Ll, Nd, P and S are distinct category
groups. -/

/-- The character-classification interface of Go's `unicode` package, over
all of `Char` (not restricted to ASCII). -/
structure CharClassifier where
  isUpper : Char → Bool
  isLower : Char → Bool
  isDigit : Char → Bool
  isPunct : Char → Bool
  isSymbol : Char → Bool

/-- The Unicode category-partition facts: an uppercase letter (Lu) is not
lowercase (Ll) and not a decimal digit (Nd); a lowercase letter is not a
digit; punctuation and symbols (P, S) are neither letters nor digits.
These hold of Go's `unicode` classifiers. -/
structure LawfulCharClassifier (cc : CharClassifier) : Prop where
  upper_not_lower : ∀ c, cc.isUpper c = true → cc.isLower c = false
  upper_not_digit : ∀ c, cc.isUpper c = true → cc.isDigit c = false
  lower_not_digit : ∀ c, cc.isLower c = true → cc.isDigit c = false
  special_not_upper : ∀ c, (cc.isPunct c || cc.isSymbol c) = true → cc.isUpper c = false
  special_not_lower : ∀ c, (cc.isPunct c || cc.isSymbol c) = true → cc.isLower c = false
  special_not_digit : ∀ c, (cc.isPunct c || cc.isSymbol c) = true → cc.isDigit c = false

/-- The four `hasUpper/hasLower/hasDigit/hasSpecial` booleans accumulated by
the character loop of `utils.ValidatePassword`. -/
structure PasswordFlags where
  hasUpper : Bool := false
  hasLower : Bool := false
  hasDigit : Bool := false
  hasSpecial : Bool := false
  deriving Repr

/-- One iteration of the character loop of `utils.ValidatePassword`: a Go
`switch` whose first matching case sets the corresponding flag. -/
def scanStep (cc : CharClassifier) (f : PasswordFlags) (c : Char) : PasswordFlags :=
  if cc.isUpper c then { f with hasUpper := true }
  else if cc.isLower c then { f with hasLower := true }
  else if cc.isDigit c then { f with hasDigit := true }
  else if cc.isPunct c || cc.isSymbol c then { f with hasSpecial := true }
  else f

/-- The `for _, char := range password` loop of `utils.ValidatePassword`. -/
def scanFlags (cc : CharClassifier) (cs : List Char) : PasswordFlags :=
  cs.foldl (scanStep cc) {}

/-- Embedding of `utils.ValidatePassword` with the default requirements
(min length 8, all four character classes required).  Go's `len(password)`
is a byte count, so the length check uses `String.utf8ByteSize`.  The error
for missing classes renders the Go `%v` of the collected messages. -/
def ValidatePassword (cc : CharClassifier) (password : String) : Option String :=
  if password.utf8ByteSize < 8 then
    some "password must be at least 8 characters long"
  else
    let f := scanFlags cc password.data
    let errors :=
      (if !f.hasUpper then ["at least one uppercase letter"] else []) ++
      (if !f.hasLower then ["at least one lowercase letter"] else []) ++
      (if !f.hasDigit then ["at least one number"] else []) ++
      (if !f.hasSpecial then ["at least one special character (!@#$%^&*)"] else [])
    if errors.isEmpty then none
    else some ("password must contain: [" ++ String.intercalate " " errors ++ "]")

/-- Embedding of `utils.HashPassword`: validate first, then hash.  bcrypt is
the abstract `hash` parameter (treated as an infallible one-way function, as
the spec directs). -/
def HashPassword (cc : CharClassifier) (hash : String → String)
    (password : String) : Except String String :=
  match ValidatePassword cc password with
  | some e => .error e
  | none => .ok (hash password)

/-! ## Store operations (services/user_service.go)

The database is a `List User`.  GORM's default scope hides soft-deleted
rows, so every query carries `v.deletedAt.isNone`.  Operations that write
return the new database; Go errors are `Except.error` with the message. -/

/-- `db.First(&user, id)`: first non-deleted row with this primary key. -/
def findByID (db : List User) (id : Nat) : Option User :=
  db.find? fun v => v.deletedAt.isNone && v.id == id

/-- Embedding of `(*UserService).GetUserByID`: returns the row regardless of
`is_active`; "user not found" when absent (or soft-deleted). -/
def GetUserByID (db : List User) (id : Nat) : Except String User :=
  match findByID db id with
  | some u => .ok u
  | none => .error "user not found"

/-- Embedding of `(*UserService).GetUserByUsername`:
`WHERE username = ? AND is_active = true` plus the soft-delete scope. -/
def GetUserByUsername (db : List User) (username : String) : Except String User :=
  match db.find? (fun v => v.deletedAt.isNone && v.username == username && v.isActive) with
  | some u => .ok u
  | none => .error "user not found"

/-- Embedding of `(*UserService).GetUserByEmail`:
`WHERE email = ? AND is_active = true` plus the soft-delete scope. -/
def GetUserByEmail (db : List User) (email : String) : Except String User :=
  match db.find? (fun v => v.deletedAt.isNone && v.email == email && v.isActive) with
  | some u => .ok u
  | none => .error "user not found"

/-- Embedding of `(*UserService).CheckUserExists`:
count of rows (soft-deleted excluded, `is_active` NOT filtered) matching
username OR email; true iff the count is positive. -/
def CheckUserExists (db : List User) (username email : String) : Bool :=
  decide (0 < (db.countP fun v =>
    v.deletedAt.isNone && (v.username == username || v.email == email)))

/-- Primary-key assignment on insert (auto-increment). -/
def nextId (db : List User) : Nat := (db.map User.id).foldl max 0 + 1

/-- The `models.User` struct literal assembled inside
`(*UserService).CreateUser`: fields absent from the Go literal stay at their
zero value `none`; `is_active` is set to `true`. -/
def buildUser (db : List User) (req : CreateUserRequest) (hashed : String)
    (now : Nat) : User :=
  { id := nextId db
    createdAt := now
    updatedAt := now
    deletedAt := none
    username := req.username
    email := req.email
    passwordHash := hashed
    role := req.role
    isActive := true
    fullName := req.fullName
    phone := req.phone
    address := req.address
    dateOfBirth := req.dateOfBirth
    gender := req.gender
    employeeID := req.employeeID
    studentID := req.studentID
    classLevel := req.classLevel
    academicYear := req.academicYear
    parentName := req.parentName
    parentPhone := req.parentPhone
    specialization := req.specialization }

/-- Embedding of `(*UserService).CreateUser`: uniqueness pre-check, password
hashing (which itself validates the password), assembly of the `models.User`,
then `db.Create`, whose `BeforeCreate` hook runs `ValidateForRole`.
Returns the Go (result, error) pair plus the resulting database. -/
def CreateUser (cc : CharClassifier) (hash : String → String) (db : List User)
    (req : CreateUserRequest) (now : Nat) : Except String User × List User :=
  if CheckUserExists db req.username req.email then
    (.error "username or email already exists", db)
  else
    match HashPassword cc hash req.password with
    | .error e => (.error ("failed to hash password: " ++ e), db)
    | .ok hashed =>
      let user : User := buildUser db req hashed now
      match ValidateForRole user with
      | some e => (.error ("failed to create user: " ++ e), db)
      | none => (.ok user, db ++ [user])

/-- The `updateData` map of `(*UserService).UpdateUser` applied to a row:
each field is overwritten only when the request supplies it (`req.X != nil`),
and GORM's `Updates` refreshes `updated_at`. -/
def applyUpdates (u : User) (req : UpdateUserRequest) (now : Nat) : User :=
  { u with
    updatedAt := now
    fullName := match req.fullName with | some v => some v | none => u.fullName
    phone := match req.phone with | some v => some v | none => u.phone
    address := match req.address with | some v => some v | none => u.address
    dateOfBirth := match req.dateOfBirth with | some v => some v | none => u.dateOfBirth
    gender := match req.gender with | some v => some v | none => u.gender
    employeeID := match req.employeeID with | some v => some v | none => u.employeeID
    studentID := match req.studentID with | some v => some v | none => u.studentID
    classLevel := match req.classLevel with | some v => some v | none => u.classLevel
    academicYear := match req.academicYear with | some v => some v | none => u.academicYear
    parentName := match req.parentName with | some v => some v | none => u.parentName
    parentPhone := match req.parentPhone with | some v => some v | none => u.parentPhone
    specialization := match req.specialization with | some v => some v | none => u.specialization
    experienceYears := match req.experienceYears with | some v => some v | none => u.experienceYears
    emergencyContact := match req.emergencyContact with | some v => some v | none => u.emergencyContact
    emergencyPhone := match req.emergencyPhone with | some v => some v | none => u.emergencyPhone
    medicalConditions := match req.medicalConditions with | some v => some v | none => u.medicalConditions
    status := match req.status with | some v => some v | none => u.status }

/-- Embedding of `(*UserService).UpdateUser`: `First` the target (NotFound if
absent), apply the sparse `updateData` via `Updates` (which also advances
`updated_at`), then re-`First` the row and return it.  The Go code ignores
the refetch's error, keeping the in-memory updated struct, hence `getD`. -/
def UpdateUser (db : List User) (userID : Nat) (req : UpdateUserRequest)
    (now : Nat) : Except String User × List User :=
  match findByID db userID with
  | none => (.error "user not found", db)
  | some u =>
    let db' := db.map fun v =>
      if v.deletedAt.isNone && v.id == userID then applyUpdates v req now else v
    (.ok ((findByID db' userID).getD (applyUpdates u req now)), db')

/-- Embedding of `(*UserService).DeactivateUser`:
`UPDATE users SET is_active = false WHERE id = ?` under the soft-delete
scope; "user not found" when zero rows were affected. -/
def DeactivateUser (db : List User) (userID : Nat) (now : Nat) :
    Except String Unit × List User :=
  let affected := db.countP fun v => v.deletedAt.isNone && v.id == userID
  if affected = 0 then (.error "user not found", db)
  else
    (.ok (), db.map fun v =>
      if v.deletedAt.isNone && v.id == userID then
        { v with isActive := false, updatedAt := now }
      else v)

/-- Embedding of `(*UserService).ActivateUser` (same shape with `true`). -/
def ActivateUser (db : List User) (userID : Nat) (now : Nat) :
    Except String Unit × List User :=
  let affected := db.countP fun v => v.deletedAt.isNone && v.id == userID
  if affected = 0 then (.error "user not found", db)
  else
    (.ok (), db.map fun v =>
      if v.deletedAt.isNone && v.id == userID then
        { v with isActive := true, updatedAt := now }
      else v)

/-- Embedding of `(*UserService).DeleteUser`: GORM soft delete — stamp
`deleted_at` on the matching non-deleted row; "user not found" when zero
rows were affected (so deleting an absent or already-deleted id fails). -/
def DeleteUser (db : List User) (userID : Nat) (now : Nat) :
    Except String Unit × List User :=
  let affected := db.countP fun v => v.deletedAt.isNone && v.id == userID
  if affected = 0 then (.error "user not found", db)
  else
    (.ok (), db.map fun v =>
      if v.deletedAt.isNone && v.id == userID then { v with deletedAt := some now }
      else v)

/-- The validation loop of `(*UserService).BulkCreateUsers`, carrying the
0-based index `i` and reporting `i + 1` in the message. -/
def validateAllFrom : Nat → List User → Option String
  | _, [] => none
  | i, u :: rest =>
    match ValidateRoleRequiredFields u with
    | some e => some ("validation failed for user " ++ toString (i + 1) ++ ": " ++ e)
    | none => validateAllFrom (i + 1) rest

/-- Fuelled splitting loop behind `chunksOf` (the fuel, instantiated with
the list length, only makes the recursion structural). -/
def chunksGo (n : Nat) : Nat → List α → List (List α)
  | _, [] => []
  | 0, _ :: _ => []
  | fuel + 1, a :: as => (a :: as).take n :: chunksGo n fuel ((a :: as).drop n)

/-- The batch split performed by GORM's `CreateInBatches(&users, n)`:
successive slices of at most `n` records (for the positive batch sizes the
service uses). -/
def chunksOf (n : Nat) (l : List α) : List (List α) := chunksGo n l.length l

/-- Embedding of `(*UserService).BulkCreateUsers`: validate every candidate
first (aborting with an index-tagged message, writing nothing), then insert
via `CreateInBatches` with batch size 100.  Database-assigned ids and
timestamps of the inserted rows are abstracted: rows are appended as given,
batch by batch. -/
def BulkCreateUsers (db : List User) (users : List User) :
    Except String Unit × List User :=
  match validateAllFrom 0 users with
  | some e => (.error e, db)
  | none => (.ok (), (chunksOf 100 users).foldl (fun d batch => d ++ batch) db)

/-! ## Concrete sample records (used by witnesses and counterexamples) -/

/-- A concrete admin record. -/
def baseUser : User :=
  { id := 1
    createdAt := 0
    updatedAt := 0
    deletedAt := none
    username := "alice"
    email := "alice@example.com"
    passwordHash := "hash0"
    role := "admin"
    isActive := true }

/-- A teacher record with both role-required fields populated. -/
def validTeacher : User :=
  { baseUser with
    id := 2, username := "tina", email := "tina@example.com", role := "teacher",
    employeeID := some "EMP-1", specialization := some "Math" }

/-- A teacher record missing its specialization. -/
def badTeacher : User :=
  { baseUser with
    id := 3, username := "tom", email := "tom@example.com", role := "teacher",
    employeeID := some "EMP-2" }

/-- A teacher whose employee id is a whitespace-only string: non-empty as the
code compares it, but blank after trimming. -/
def blankEmployeeTeacher : User :=
  { baseUser with
    role := "teacher", employeeID := some " ", specialization := some "Math" }

/-- A student record with all four role-required fields populated. -/
def studentUser : User :=
  { baseUser with
    id := 4, username := "sam", email := "sam@example.com", role := "student",
    studentID := some "S-1", classLevel := some "5", parentName := some "Pat",
    parentPhone := some "0800", phone := some "0700", address := some "Elm St" }

/-- An update request supplying only the phone field. -/
def phoneOnlyReq : UpdateUserRequest := { phone := some "0812345678" }

/-- `baseUser` with the active flag cleared. -/
def inactiveUser : User := { baseUser with isActive := false }

/-- `baseUser` with a salary value: differs from `baseUser` only in the
salary field. -/
def salariedUser : User := { baseUser with salary := some 1.0 }

/-- `studentUser` after the phone-only update at tick 9. -/
def updStudent : User := applyUpdates studentUser phoneOnlyReq 9

/-- 101 role-valid teacher candidates for a bulk import. -/
def teacherList101 : List User := List.replicate 101 validTeacher

/-- A bulk import whose 50th candidate (1-based) is a teacher missing its
specialization. -/
def mixedList : List User :=
  List.replicate 49 validTeacher ++ badTeacher :: List.replicate 10 validTeacher

/-- A concrete stand-in for the abstract bcrypt hash. -/
def demoHash (s : String) : String := "h:" ++ s

/-- A concrete classifier used only to instantiate witnesses, whose sample
passwords are pure ASCII: it agrees with Go's `unicode` classifiers on
every ASCII character (letters and digits by their Latin-1 tables; every
other printable non-space ASCII character is in the Unicode P or S
categories, filed here under `isPunct`). -/
def sampleClassifier : CharClassifier :=
  { isUpper := fun c => 65 ≤ c.toNat && c.toNat ≤ 90
    isLower := fun c => 97 ≤ c.toNat && c.toNat ≤ 122
    isDigit := fun c => 48 ≤ c.toNat && c.toNat ≤ 57
    isPunct := fun c =>
      33 ≤ c.toNat && c.toNat ≤ 126 &&
      !(65 ≤ c.toNat && c.toNat ≤ 90) &&
      !(97 ≤ c.toNat && c.toNat ≤ 122) &&
      !(48 ≤ c.toNat && c.toNat ≤ 57)
    isSymbol := fun _ => false }

/-- A creation request with a policy-conforming password. -/
def goodReq : CreateUserRequest :=
  { username := "neo"
    email := "neo@example.com"
    password := "Passw0rd!"
    role := "admin" }

/-- The same creation request with a password that is too short. -/
def badReq : CreateUserRequest := { goodReq with password := "short" }

/-! ## Theorems -/

/-- The code's "absent" test (`nil or == ""`) is the negation of
`fieldPresent`. -/
theorem not_fieldPresent_iff (o : Option String) :
    (o = none ∨ o.getD "" = "") ↔ ¬ fieldPresent o := by
  cases o with
  | none => simp [fieldPresent]
  | some s => simp [fieldPresent]

/-- **C1** (amended: a string field counts as present iff it is non-null and
non-empty under exact comparison — the code does not trim whitespace).  The
role validation predicate fails for role = teacher exactly when employee ID
or specialization is absent, with messages "employee_id is required for
teachers" / "specialization is required for teachers"; fails for role =
student exactly when any of student ID, class level, parent name, parent
phone is absent, each with its own message of the same pattern; and never
fails for role = admin. -/
theorem C1_role_required_fields (u : User) :
    (u.role = "teacher" →
      ((ValidateRoleRequiredFields u = none ↔
          fieldPresent u.employeeID ∧ fieldPresent u.specialization) ∧
       (¬ fieldPresent u.employeeID →
          ValidateRoleRequiredFields u = some "employee_id is required for teachers") ∧
       (fieldPresent u.employeeID → ¬ fieldPresent u.specialization →
          ValidateRoleRequiredFields u = some "specialization is required for teachers"))) ∧
    (u.role = "student" →
      ((ValidateRoleRequiredFields u = none ↔
          fieldPresent u.studentID ∧ fieldPresent u.classLevel ∧
          fieldPresent u.parentName ∧ fieldPresent u.parentPhone) ∧
       (¬ fieldPresent u.studentID →
          ValidateRoleRequiredFields u = some "student_id is required for students") ∧
       (fieldPresent u.studentID → ¬ fieldPresent u.classLevel →
          ValidateRoleRequiredFields u = some "class_level is required for students") ∧
       (fieldPresent u.studentID → fieldPresent u.classLevel →
          ¬ fieldPresent u.parentName →
          ValidateRoleRequiredFields u = some "parent_name is required for students") ∧
       (fieldPresent u.studentID → fieldPresent u.classLevel →
          fieldPresent u.parentName → ¬ fieldPresent u.parentPhone →
          ValidateRoleRequiredFields u = some "parent_phone is required for students"))) ∧
    (u.role = "admin" → ValidateRoleRequiredFields u = none) := by
  refine ⟨fun hrole => ?_, fun hrole => ?_, fun hrole => ?_⟩ <;>
    simp only [ValidateRoleRequiredFields, hrole]
  · by_cases hE : fieldPresent u.employeeID <;>
      by_cases hS : fieldPresent u.specialization <;>
      simp [not_fieldPresent_iff, hE, hS]
  · by_cases h1 : fieldPresent u.studentID <;>
      by_cases h2 : fieldPresent u.classLevel <;>
      by_cases h3 : fieldPresent u.parentName <;>
      by_cases h4 : fieldPresent u.parentPhone <;>
      simp [not_fieldPresent_iff, h1, h2, h3, h4]
  · rfl

/-- Witness for C1: a concrete admin passes, and a concrete teacher with a
populated employee id but no specialization fails with the specialization
message. -/
theorem C1_role_required_fields_witness :
    ValidateRoleRequiredFields baseUser = none ∧
    ValidateRoleRequiredFields badTeacher =
      some "specialization is required for teachers" :=
  ⟨(C1_role_required_fields baseUser).2.2 rfl,
   ((C1_role_required_fields badTeacher).1 rfl).2.2
     (by simp [badTeacher, baseUser, fieldPresent])
     (by simp [badTeacher, baseUser, fieldPresent])⟩

/-- Counterexample to C1 as stated: under the claim's presence definition
("non-empty after trimming"), a teacher whose employee id is the whitespace
string " " has an absent employee id, so the claim says validation must
fail; the code compares against "" without trimming and accepts the
record. -/
theorem C1_counterexample :
    blankEmployeeTeacher.role = "teacher" ∧
    ¬ specFieldPresent blankEmployeeTeacher.employeeID ∧
    ValidateRoleRequiredFields blankEmployeeTeacher = none := by
  refine ⟨rfl, ?_, by decide⟩
  decide

/-- **C2**: the view projection of any stored record never includes the
password hash: the response type has no such field, and the projection's
output is entirely independent of the record's password hash. -/
theorem C2_response_never_includes_password_hash (u : User) (h : String) :
    ToResponse { u with passwordHash := h } = ToResponse u := rfl

/-- **C9** (amended): the view projection passes through the thirty fields of
the response type unchanged, including role-irrelevant ones, but beyond the
password hash it also omits the salary, blood type and additional-data
fields (and the internal soft-delete marker): the response is independent
of all five. -/
theorem C9_projection_passthrough (u : User) :
    ((ToResponse u).id = u.id ∧ (ToResponse u).createdAt = u.createdAt ∧
     (ToResponse u).updatedAt = u.updatedAt ∧
     (ToResponse u).username = u.username ∧ (ToResponse u).email = u.email ∧
     (ToResponse u).role = u.role ∧ (ToResponse u).isActive = u.isActive ∧
     (ToResponse u).fullName = u.fullName ∧ (ToResponse u).phone = u.phone ∧
     (ToResponse u).address = u.address ∧
     (ToResponse u).dateOfBirth = u.dateOfBirth ∧
     (ToResponse u).gender = u.gender ∧
     (ToResponse u).profilePhoto = u.profilePhoto ∧
     (ToResponse u).employeeID = u.employeeID ∧
     (ToResponse u).specialization = u.specialization ∧
     (ToResponse u).qualification = u.qualification ∧
     (ToResponse u).experienceYears = u.experienceYears ∧
     (ToResponse u).hireDate = u.hireDate ∧
     (ToResponse u).studentID = u.studentID ∧
     (ToResponse u).classLevel = u.classLevel ∧
     (ToResponse u).academicYear = u.academicYear ∧
     (ToResponse u).parentName = u.parentName ∧
     (ToResponse u).parentPhone = u.parentPhone ∧
     (ToResponse u).parentEmail = u.parentEmail ∧
     (ToResponse u).enrollmentDate = u.enrollmentDate ∧
     (ToResponse u).graduationDate = u.graduationDate ∧
     (ToResponse u).emergencyContact = u.emergencyContact ∧
     (ToResponse u).emergencyPhone = u.emergencyPhone ∧
     (ToResponse u).medicalConditions = u.medicalConditions ∧
     (ToResponse u).status = u.status) ∧
    (∀ s b a h d,
      ToResponse { u with salary := s, bloodType := b, additionalData := a,
                          passwordHash := h, deletedAt := d } = ToResponse u) :=
  ⟨⟨rfl, rfl, rfl, rfl, rfl, rfl, rfl, rfl, rfl, rfl, rfl, rfl, rfl, rfl, rfl,
    rfl, rfl, rfl, rfl, rfl, rfl, rfl, rfl, rfl, rfl, rfl, rfl, rfl, rfl, rfl⟩,
   fun _ _ _ _ _ => rfl⟩

/-- Counterexample to C9 as stated: two records that differ only in the
salary field (a field other than the password hash) have identical
projections, so the salary field is hidden by the projection, contradicting
"no field beyond the password hash is hidden". -/
theorem C9_counterexample :
    baseUser.salary = none ∧ salariedUser.salary = some 1.0 ∧
    baseUser.salary ≠ salariedUser.salary ∧
    baseUser.passwordHash = salariedUser.passwordHash ∧
    ToResponse baseUser = ToResponse salariedUser :=
  ⟨rfl, rfl, by simp [baseUser, salariedUser], rfl, rfl⟩

/-- **C6**: the existence check is true exactly when some (non-soft-deleted)
record matches the username or the email; the condition places no constraint
on the record's active flag, so inactive records are included. -/
theorem C6_check_user_exists_iff (db : List User) (username email : String) :
    CheckUserExists db username email = true ↔
      ∃ v ∈ db, v.deletedAt = none ∧ (v.username = username ∨ v.email = email) := by
  simp [CheckUserExists, List.countP_pos_iff, Option.isNone_iff_eq_none, and_assoc]

/-- Witness for C6: an inactive record matching only the username makes the
check answer true. -/
theorem C6_check_user_exists_iff_witness :
    CheckUserExists [inactiveUser] "alice" "nobody@example.com" = true :=
  (C6_check_user_exists_iff [inactiveUser] "alice" "nobody@example.com").mpr
    ⟨inactiveUser, List.mem_singleton.mpr rfl, rfl, Or.inl rfl⟩

/-- A row-map that preserves the primary key and the soft-delete marker
commutes with lookup by id. -/
theorem findByID_map_preserve (db : List User) (id : Nat) (g : User → User)
    (hpres : ∀ v, ((g v).deletedAt.isNone && (g v).id == id)
               = (v.deletedAt.isNone && v.id == id)) :
    findByID (db.map g) id = (findByID db id).map g := by
  unfold findByID
  rw [List.find?_map]
  have h : ((fun v : User => v.deletedAt.isNone && v.id == id) ∘ g)
      = fun v : User => v.deletedAt.isNone && v.id == id := funext hpres
  rw [h]

/-- **C4**: deactivating an existing user (whose username and email no other
record shares) makes lookup-by-username and lookup-by-email fail with
"user not found", while lookup-by-ID still returns the record with the
active flag cleared; and in general those two lookups only ever return
records whose active flag is true. -/
theorem C4_deactivation_lockout (db : List User) (id now : Nat) (u : User)
    (hu : findByID db id = some u)
    (hname : ∀ v ∈ db, v.deletedAt = none → v.username = u.username → v.id = id)
    (hmail : ∀ v ∈ db, v.deletedAt = none → v.email = u.email → v.id = id) :
    ∃ db', DeactivateUser db id now = (.ok (), db') ∧
      GetUserByUsername db' u.username = .error "user not found" ∧
      GetUserByEmail db' u.email = .error "user not found" ∧
      GetUserByID db' id = .ok { u with isActive := false, updatedAt := now } ∧
      (∀ name r, GetUserByUsername db' name = .ok r → r.isActive = true) ∧
      (∀ em r, GetUserByEmail db' em = .ok r → r.isActive = true) := by
  have hu' : db.find? (fun v => v.deletedAt.isNone && v.id == id) = some u := hu
  have hpu : (u.deletedAt.isNone && u.id == id) = true := by
    have := List.find?_some hu'
    simpa using this
  have hmem : u ∈ db := List.mem_of_find?_eq_some hu'
  have haff : (db.countP fun v => v.deletedAt.isNone && v.id == id) ≠ 0 := by
    have : 0 < db.countP fun v => v.deletedAt.isNone && v.id == id :=
      List.countP_pos_iff.mpr ⟨u, hmem, hpu⟩
    omega
  refine ⟨db.map fun v =>
    if v.deletedAt.isNone && v.id == id then
      { v with isActive := false, updatedAt := now }
    else v, ?_, ?_, ?_, ?_, ?_, ?_⟩
  · simp only [DeactivateUser]
    rw [if_neg haff]
  · have hnone : (db.map fun v =>
        if v.deletedAt.isNone && v.id == id then
          { v with isActive := false, updatedAt := now }
        else v).find?
          (fun v => v.deletedAt.isNone && v.username == u.username && v.isActive)
        = none := by
      apply List.find?_eq_none.mpr
      intro w hw
      rcases List.mem_map.mp hw with ⟨v, hv, rfl⟩
      by_cases hvp : (v.deletedAt.isNone && v.id == id) = true
      · rw [if_pos hvp]; simp
      · rw [if_neg hvp]
        intro hpw
        simp only [Bool.and_eq_true, beq_iff_eq, Option.isNone_iff_eq_none]
          at hpw hvp
        exact hvp ⟨hpw.1.1, hname v hv hpw.1.1 hpw.1.2⟩
    simp only [GetUserByUsername]
    rw [hnone]
  · have hnone : (db.map fun v =>
        if v.deletedAt.isNone && v.id == id then
          { v with isActive := false, updatedAt := now }
        else v).find?
          (fun v => v.deletedAt.isNone && v.email == u.email && v.isActive)
        = none := by
      apply List.find?_eq_none.mpr
      intro w hw
      rcases List.mem_map.mp hw with ⟨v, hv, rfl⟩
      by_cases hvp : (v.deletedAt.isNone && v.id == id) = true
      · rw [if_pos hvp]; simp
      · rw [if_neg hvp]
        intro hpw
        simp only [Bool.and_eq_true, beq_iff_eq, Option.isNone_iff_eq_none]
          at hpw hvp
        exact hvp ⟨hpw.1.1, hmail v hv hpw.1.1 hpw.1.2⟩
    simp only [GetUserByEmail]
    rw [hnone]
  · have hmap := findByID_map_preserve db id
      (fun v => if v.deletedAt.isNone && v.id == id then
        { v with isActive := false, updatedAt := now } else v)
      (fun v => by by_cases hv : (v.deletedAt.isNone && v.id == id) = true <;> simp [hv])
    have hfind : findByID (db.map fun v =>
        if v.deletedAt.isNone && v.id == id then
          { v with isActive := false, updatedAt := now }
        else v) id = some { u with isActive := false, updatedAt := now } := by
      rw [hmap, hu, Option.map_some']
      exact congrArg some (if_pos hpu)
    simp only [GetUserByID]
    rw [hfind]
  · intro name r hr
    simp only [GetUserByUsername] at hr
    cases hfind : (db.map fun v =>
        if v.deletedAt.isNone && v.id == id then
          { v with isActive := false, updatedAt := now }
        else v).find? (fun v => v.deletedAt.isNone && v.username == name && v.isActive) with
    | none => rw [hfind] at hr; cases hr
    | some w =>
      rw [hfind] at hr
      have hw := List.find?_some hfind
      simp only [Bool.and_eq_true] at hw
      simp only [Except.ok.injEq] at hr
      rw [← hr]
      exact hw.2
  · intro em r hr
    simp only [GetUserByEmail] at hr
    cases hfind : (db.map fun v =>
        if v.deletedAt.isNone && v.id == id then
          { v with isActive := false, updatedAt := now }
        else v).find? (fun v => v.deletedAt.isNone && v.email == em && v.isActive) with
    | none => rw [hfind] at hr; cases hr
    | some w =>
      rw [hfind] at hr
      have hw := List.find?_some hfind
      simp only [Bool.and_eq_true] at hw
      simp only [Except.ok.injEq] at hr
      rw [← hr]
      exact hw.2

/-- Witness for C4: deactivating the only record locks it out of the
username/email lookups but not the id lookup. -/
theorem C4_deactivation_lockout_witness :
    ∃ db', DeactivateUser [baseUser] 1 5 = (.ok (), db') ∧
      GetUserByUsername db' baseUser.username = .error "user not found" ∧
      GetUserByEmail db' baseUser.email = .error "user not found" ∧
      GetUserByID db' 1 = .ok { baseUser with isActive := false, updatedAt := 5 } ∧
      (∀ name r, GetUserByUsername db' name = .ok r → r.isActive = true) ∧
      (∀ em r, GetUserByEmail db' em = .ok r → r.isActive = true) :=
  C4_deactivation_lockout [baseUser] 1 5 baseUser rfl
    (fun v hv _ _ => by rw [List.mem_singleton] at hv; subst hv; rfl)
    (fun v hv _ _ => by rw [List.mem_singleton] at hv; subst hv; rfl)

/-- **C7**: delete stamps a soft-delete tombstone (the row count is
preserved and the tombstoned row is still physically present); deleting an
absent id fails with "user not found"; and after deleting an existing user
(whose username and email no other record shares), lookup by id, by
username and by email all fail with "user not found". -/
theorem C7_soft_delete (db : List User) (id now : Nat) :
    (findByID db id = none → DeleteUser db id now = (.error "user not found", db)) ∧
    (∀ u, findByID db id = some u →
      (∀ v ∈ db, v.deletedAt = none → v.username = u.username → v.id = id) →
      (∀ v ∈ db, v.deletedAt = none → v.email = u.email → v.id = id) →
      ∃ db', DeleteUser db id now = (.ok (), db') ∧
        db'.length = db.length ∧
        { u with deletedAt := some now } ∈ db' ∧
        GetUserByID db' id = .error "user not found" ∧
        GetUserByUsername db' u.username = .error "user not found" ∧
        GetUserByEmail db' u.email = .error "user not found") := by
  constructor
  · intro hnone
    have hnone' : db.find? (fun v => v.deletedAt.isNone && v.id == id) = none := hnone
    have hz : (db.countP fun v => v.deletedAt.isNone && v.id == id) = 0 :=
      List.countP_eq_zero.mpr (List.find?_eq_none.mp hnone')
    simp only [DeleteUser]
    rw [if_pos hz]
  · intro u hu hname hmail
    have hu' : db.find? (fun v => v.deletedAt.isNone && v.id == id) = some u := hu
    have hpu : (u.deletedAt.isNone && u.id == id) = true := by
      have := List.find?_some hu'
      simpa using this
    have hmem : u ∈ db := List.mem_of_find?_eq_some hu'
    have haff : (db.countP fun v => v.deletedAt.isNone && v.id == id) ≠ 0 := by
      have : 0 < db.countP fun v => v.deletedAt.isNone && v.id == id :=
        List.countP_pos_iff.mpr ⟨u, hmem, hpu⟩
      omega
    refine ⟨db.map fun v =>
      if v.deletedAt.isNone && v.id == id then { v with deletedAt := some now }
      else v, ?_, by simp, ?_, ?_, ?_, ?_⟩
    · simp only [DeleteUser]
      rw [if_neg haff]
    · exact List.mem_map.mpr ⟨u, hmem, by rw [if_pos hpu]⟩
    · have hnone : (db.map fun v =>
          if v.deletedAt.isNone && v.id == id then { v with deletedAt := some now }
          else v).find? (fun v => v.deletedAt.isNone && v.id == id) = none := by
        apply List.find?_eq_none.mpr
        intro w hw
        rcases List.mem_map.mp hw with ⟨v, hv, rfl⟩
        by_cases hvp : (v.deletedAt.isNone && v.id == id) = true
        · rw [if_pos hvp]; simp
        · rw [if_neg hvp]; exact fun hpw => hvp hpw
      simp only [GetUserByID, findByID]
      rw [hnone]
    · have hnone : (db.map fun v =>
          if v.deletedAt.isNone && v.id == id then { v with deletedAt := some now }
          else v).find?
            (fun v => v.deletedAt.isNone && v.username == u.username && v.isActive)
          = none := by
        apply List.find?_eq_none.mpr
        intro w hw
        rcases List.mem_map.mp hw with ⟨v, hv, rfl⟩
        by_cases hvp : (v.deletedAt.isNone && v.id == id) = true
        · rw [if_pos hvp]; simp
        · rw [if_neg hvp]
          intro hpw
          simp only [Bool.and_eq_true, beq_iff_eq, Option.isNone_iff_eq_none]
            at hpw hvp
          exact hvp ⟨hpw.1.1, hname v hv hpw.1.1 hpw.1.2⟩
      simp only [GetUserByUsername]
      rw [hnone]
    · have hnone : (db.map fun v =>
          if v.deletedAt.isNone && v.id == id then { v with deletedAt := some now }
          else v).find?
            (fun v => v.deletedAt.isNone && v.email == u.email && v.isActive)
          = none := by
        apply List.find?_eq_none.mpr
        intro w hw
        rcases List.mem_map.mp hw with ⟨v, hv, rfl⟩
        by_cases hvp : (v.deletedAt.isNone && v.id == id) = true
        · rw [if_pos hvp]; simp
        · rw [if_neg hvp]
          intro hpw
          simp only [Bool.and_eq_true, beq_iff_eq, Option.isNone_iff_eq_none]
            at hpw hvp
          exact hvp ⟨hpw.1.1, hmail v hv hpw.1.1 hpw.1.2⟩
      simp only [GetUserByEmail]
      rw [hnone]

/-- With an existing target, `UpdateUser` applies the sparse update to the
matching row and returns the updated row. -/
theorem UpdateUser_found (db : List User) (id : Nat) (req : UpdateUserRequest)
    (now : Nat) (u : User) (hu : findByID db id = some u) :
    UpdateUser db id req now =
      (.ok (applyUpdates u req now),
       db.map fun v =>
        if v.deletedAt.isNone && v.id == id then applyUpdates v req now
        else v) := by
  have hpu : (u.deletedAt.isNone && u.id == id) = true := by
    have := List.find?_some
      (show db.find? (fun v => v.deletedAt.isNone && v.id == id) = some u from hu)
    simpa using this
  have hmap := findByID_map_preserve db id
    (fun v => if v.deletedAt.isNone && v.id == id then applyUpdates v req now else v)
    (fun v => by
      by_cases hv : (v.deletedAt.isNone && v.id == id) = true <;>
        simp [hv, applyUpdates])
  simp only [UpdateUser, hu]
  rw [hmap, hu, Option.map_some', Option.getD_some, if_pos hpu]

/-- With an existing target, looking the id up again after `UpdateUser`
returns the updated row. -/
theorem UpdateUser_found_lookup (db : List User) (id : Nat)
    (req : UpdateUserRequest) (now : Nat) (u : User)
    (hu : findByID db id = some u) :
    findByID (db.map fun v =>
      if v.deletedAt.isNone && v.id == id then applyUpdates v req now
      else v) id = some (applyUpdates u req now) := by
  have hpu : (u.deletedAt.isNone && u.id == id) = true := by
    have := List.find?_some
      (show db.find? (fun v => v.deletedAt.isNone && v.id == id) = some u from hu)
    simpa using this
  have hmap := findByID_map_preserve db id
    (fun v => if v.deletedAt.isNone && v.id == id then applyUpdates v req now else v)
    (fun v => by
      by_cases hv : (v.deletedAt.isNone && v.id == id) = true <;>
        simp [hv, applyUpdates])
  rw [hmap, hu, Option.map_some']
  exact congrArg some (if_pos hpu)

/-- **C3**: a partial update fails with "user not found" when the target id
does not exist; otherwise it applies exactly the supplied fields, leaves
every absent field at its stored value, advances `updated_at` to the
current tick, and returns the refreshed record (the one a subsequent lookup
of the id finds). -/
theorem C3_partial_update (db : List User) (id : Nat) (req : UpdateUserRequest)
    (now : Nat) :
    (findByID db id = none → UpdateUser db id req now = (.error "user not found", db)) ∧
    (∀ u, findByID db id = some u →
      ∃ u' db', UpdateUser db id req now = (.ok u', db') ∧
        findByID db' id = some u' ∧
        u'.updatedAt = now ∧
        (req.fullName = none → u'.fullName = u.fullName) ∧
        (∀ x, req.fullName = some x → u'.fullName = some x) ∧
        (req.phone = none → u'.phone = u.phone) ∧
        (∀ x, req.phone = some x → u'.phone = some x) ∧
        (req.address = none → u'.address = u.address) ∧
        (∀ x, req.address = some x → u'.address = some x) ∧
        (req.dateOfBirth = none → u'.dateOfBirth = u.dateOfBirth) ∧
        (∀ x, req.dateOfBirth = some x → u'.dateOfBirth = some x) ∧
        (req.gender = none → u'.gender = u.gender) ∧
        (∀ x, req.gender = some x → u'.gender = some x) ∧
        (req.employeeID = none → u'.employeeID = u.employeeID) ∧
        (∀ x, req.employeeID = some x → u'.employeeID = some x) ∧
        (req.studentID = none → u'.studentID = u.studentID) ∧
        (∀ x, req.studentID = some x → u'.studentID = some x) ∧
        (req.classLevel = none → u'.classLevel = u.classLevel) ∧
        (∀ x, req.classLevel = some x → u'.classLevel = some x) ∧
        (req.academicYear = none → u'.academicYear = u.academicYear) ∧
        (∀ x, req.academicYear = some x → u'.academicYear = some x) ∧
        (req.parentName = none → u'.parentName = u.parentName) ∧
        (∀ x, req.parentName = some x → u'.parentName = some x) ∧
        (req.parentPhone = none → u'.parentPhone = u.parentPhone) ∧
        (∀ x, req.parentPhone = some x → u'.parentPhone = some x) ∧
        (req.specialization = none → u'.specialization = u.specialization) ∧
        (∀ x, req.specialization = some x → u'.specialization = some x) ∧
        (req.experienceYears = none → u'.experienceYears = u.experienceYears) ∧
        (∀ x, req.experienceYears = some x → u'.experienceYears = some x) ∧
        (req.emergencyContact = none → u'.emergencyContact = u.emergencyContact) ∧
        (∀ x, req.emergencyContact = some x → u'.emergencyContact = some x) ∧
        (req.emergencyPhone = none → u'.emergencyPhone = u.emergencyPhone) ∧
        (∀ x, req.emergencyPhone = some x → u'.emergencyPhone = some x) ∧
        (req.medicalConditions = none → u'.medicalConditions = u.medicalConditions) ∧
        (∀ x, req.medicalConditions = some x → u'.medicalConditions = some x) ∧
        (req.status = none → u'.status = u.status) ∧
        (∀ x, req.status = some x → u'.status = some x)) := by
  constructor
  · intro hnone
    simp only [UpdateUser, hnone]
  · intro u hu
    refine ⟨applyUpdates u req now, _, UpdateUser_found db id req now u hu,
      UpdateUser_found_lookup db id req now u hu, rfl, ?_, ?_, ?_, ?_, ?_, ?_,
      ?_, ?_, ?_, ?_, ?_, ?_, ?_, ?_, ?_, ?_, ?_, ?_, ?_, ?_, ?_, ?_, ?_, ?_,
      ?_, ?_, ?_, ?_, ?_, ?_, ?_, ?_, ?_, ?_⟩ <;>
      first
      | (intro h; simp [applyUpdates, h])
      | (intro x h; simp [applyUpdates, h])

/-- Witness for C3: updating the only student with a phone-only request
returns a refreshed record whose phone changed, whose address and class
level are untouched, and whose `updated_at` advanced. -/
theorem C3_partial_update_witness :
    ∃ u' db', UpdateUser [studentUser] 4 phoneOnlyReq 9 = (.ok u', db') ∧
      findByID db' 4 = some u' ∧ u'.updatedAt = 9 ∧
      u'.phone = some "0812345678" ∧ u'.address = studentUser.address ∧
      u'.classLevel = studentUser.classLevel := by
  obtain ⟨u', db', h1, h2, h3, _, _, _, hps, han, _, _, _, _, _, _, _, _, _,
      hcn, _, _, _, _, _, _, _, _, _, _, _, _, _, _, _, _, _, _⟩ :=
    (C3_partial_update [studentUser] 4 phoneOnlyReq 9).2 studentUser rfl
  exact ⟨u', db', h1, h2, h3, hps "0812345678" rfl, han rfl, hcn rfl⟩

/-- **C10**: a partial update never changes the record's id, username,
email, password hash, role, active flag, creation timestamp or soft-delete
marker — the sparse update request carries no such fields. -/
theorem C10_update_preserves_identity (db : List User) (id : Nat)
    (req : UpdateUserRequest) (now : Nat) (u u' : User) (db' : List User)
    (hu : findByID db id = some u)
    (hres : UpdateUser db id req now = (.ok u', db')) :
    u'.id = u.id ∧ u'.username = u.username ∧ u'.email = u.email ∧
    u'.passwordHash = u.passwordHash ∧ u'.role = u.role ∧
    u'.isActive = u.isActive ∧ u'.createdAt = u.createdAt ∧
    u'.deletedAt = u.deletedAt := by
  rw [UpdateUser_found db id req now u hu] at hres
  simp only [Prod.mk.injEq, Except.ok.injEq] at hres
  rw [← hres.1]
  exact ⟨rfl, rfl, rfl, rfl, rfl, rfl, rfl, rfl⟩

/-- Witness for C10: the phone-only update leaves all identity and
authentication fields of the student unchanged. -/
theorem C10_update_preserves_identity_witness :
    updStudent.id = studentUser.id ∧ updStudent.username = studentUser.username ∧
    updStudent.email = studentUser.email ∧
    updStudent.passwordHash = studentUser.passwordHash ∧
    updStudent.role = studentUser.role ∧
    updStudent.isActive = studentUser.isActive ∧
    updStudent.createdAt = studentUser.createdAt ∧
    updStudent.deletedAt = studentUser.deletedAt :=
  C10_update_preserves_identity [studentUser] 4 phoneOnlyReq 9 studentUser
    updStudent [updStudent] rfl rfl

/-- Witness for C7: deleting from an empty store fails with "user not
found"; deleting the only record tombstones it and hides it from all three
lookups. -/
theorem C7_soft_delete_witness :
    DeleteUser [] 7 3 = (.error "user not found", []) ∧
    (∃ db', DeleteUser [baseUser] 1 3 = (.ok (), db') ∧
      db'.length = [baseUser].length ∧
      { baseUser with deletedAt := some 3 } ∈ db' ∧
      GetUserByID db' 1 = .error "user not found" ∧
      GetUserByUsername db' baseUser.username = .error "user not found" ∧
      GetUserByEmail db' baseUser.email = .error "user not found") :=
  ⟨(C7_soft_delete [] 7 3).1 rfl,
   (C7_soft_delete [baseUser] 1 3).2 baseUser rfl
     (fun v hv _ _ => by rw [List.mem_singleton] at hv; subst hv; rfl)
     (fun v hv _ _ => by rw [List.mem_singleton] at hv; subst hv; rfl)⟩

/-- The bulk-validation loop reports the 1-based position of the first
invalid candidate. -/
theorem validateAllFrom_append : ∀ (us1 : List User) (u : User) (us2 : List User)
    (e : String) (i : Nat),
    (∀ v ∈ us1, ValidateRoleRequiredFields v = none) →
    ValidateRoleRequiredFields u = some e →
    validateAllFrom i (us1 ++ u :: us2) =
      some ("validation failed for user " ++ toString (i + us1.length + 1) ++ ": " ++ e)
  | [], u, us2, e, i, _, he => by
    simp [validateAllFrom, he]
  | a :: as, u, us2, e, i, h1, he => by
    simp only [List.cons_append, validateAllFrom, h1 a (by simp), List.append_eq]
    rw [validateAllFrom_append as u us2 e (i + 1)
      (fun v hv => h1 v (by simp [hv])) he]
    have hn : i + 1 + as.length + 1 = i + (a :: as).length + 1 := by
      simp only [List.length_cons]
      omega
    rw [hn]

/-- The bulk-validation loop accepts a list of valid candidates. -/
theorem validateAllFrom_none : ∀ (us : List User) (i : Nat),
    (∀ v ∈ us, ValidateRoleRequiredFields v = none) → validateAllFrom i us = none
  | [], _, _ => rfl
  | a :: as, i, h => by
    simp only [validateAllFrom, h a (by simp)]
    exact validateAllFrom_none as (i + 1) (fun v hv => h v (by simp [hv]))

/-- With enough fuel, concatenating the produced batches recovers the
input list. -/
theorem chunksGo_flatten (n : Nat) : ∀ (fuel : Nat) (l : List α),
    l.length ≤ fuel → (chunksGo (n + 1) fuel l).flatten = l
  | _, [], _ => by simp [chunksGo]
  | 0, _ :: _, h => by simp at h
  | fuel + 1, a :: as, h => by
    simp only [chunksGo, List.flatten_cons]
    rw [chunksGo_flatten n fuel ((a :: as).drop (n + 1))
      (by
        simp only [List.length_cons] at h
        simp only [List.length_drop, List.length_cons]
        omega)]
    exact List.take_append_drop (n + 1) (a :: as)

/-- Concatenating the batches produced by the batch split recovers the
input list. -/
theorem chunksOf_flatten (n : Nat) (l : List α) :
    (chunksOf (n + 1) l).flatten = l :=
  chunksGo_flatten n l.length l (Nat.le_refl _)

/-- With any fuel, every produced batch has at most the batch size. -/
theorem chunksGo_length_le (n : Nat) : ∀ (fuel : Nat) (l : List α) (b : List α),
    b ∈ chunksGo (n + 1) fuel l → b.length ≤ n + 1
  | _, [], b, hb => by simp [chunksGo] at hb
  | 0, _ :: _, b, hb => by simp [chunksGo] at hb
  | fuel + 1, a :: as, b, hb => by
    simp only [chunksGo] at hb
    rcases List.mem_cons.mp hb with rfl | hb'
    · simp [List.length_take]
    · exact chunksGo_length_le n fuel ((a :: as).drop (n + 1)) b hb'

/-- Every batch produced by the batch split has at most the batch size. -/
theorem chunksOf_length_le (n : Nat) (l : List α) :
    ∀ b ∈ chunksOf (n + 1) l, b.length ≤ n + 1 :=
  fun b hb => chunksGo_length_le n l.length l b hb

/-- Folding list append over the batches appends their concatenation. -/
theorem foldl_append_flatten (L : List (List User)) (acc : List User) :
    L.foldl (fun d batch => d ++ batch) acc = acc ++ L.flatten := by
  induction L generalizing acc with
  | nil => simp
  | cons b L ih => simp [ih, List.append_assoc]

/-- **C5**: bulk creation validates every candidate before persisting
anything: an invalid candidate aborts the whole operation with a message
naming its 1-based position and leaves the database untouched, while a
fully valid list is persisted in its entirety, split by the underlying
batch insert into batches of at most 100 whose concatenation is exactly
the input. -/
theorem C5_bulk_create (db users : List User) :
    (∀ us1 u us2 e, users = us1 ++ u :: us2 →
      (∀ v ∈ us1, ValidateRoleRequiredFields v = none) →
      ValidateRoleRequiredFields u = some e →
      BulkCreateUsers db users =
        (.error ("validation failed for user " ++ toString (us1.length + 1) ++ ": " ++ e),
         db)) ∧
    ((∀ v ∈ users, ValidateRoleRequiredFields v = none) →
      BulkCreateUsers db users = (.ok (), db ++ users) ∧
      (chunksOf 100 users).flatten = users ∧
      (∀ b ∈ chunksOf 100 users, b.length ≤ 100)) := by
  constructor
  · rintro us1 u us2 e rfl h1 he
    have hv := validateAllFrom_append us1 u us2 e 0 h1 he
    rw [Nat.zero_add] at hv
    simp only [BulkCreateUsers, hv]
  · intro hall
    have hv := validateAllFrom_none users 0 hall
    refine ⟨?_, chunksOf_flatten 99 users, chunksOf_length_le 99 users⟩
    simp only [BulkCreateUsers, hv]
    rw [foldl_append_flatten, chunksOf_flatten 99 users]

/-- Witness for C5: 101 valid teachers import as a whole (in batches of
100 + 1), while an import whose 50th candidate misses its specialization
fails with an index-50 message and writes nothing. -/
theorem C5_bulk_create_witness :
    (BulkCreateUsers [] teacherList101 = (.ok (), teacherList101) ∧
      (chunksOf 100 teacherList101).map List.length = [100, 1]) ∧
    BulkCreateUsers [] mixedList =
      (.error "validation failed for user 50: specialization is required for teachers",
       []) := by
  constructor
  · have h := (C5_bulk_create [] teacherList101).2
      (fun v hv => by
        simp only [teacherList101] at hv
        rw [List.eq_of_mem_replicate hv]
        rfl)
    exact ⟨by simpa using h.1, by decide⟩
  · have h := (C5_bulk_create [] mixedList).1 (List.replicate 49 validTeacher)
      badTeacher (List.replicate 10 validTeacher)
      "specialization is required for teachers" rfl
      (fun v hv => by rw [List.eq_of_mem_replicate hv]; rfl)
      rfl
    simpa using h

/-- The witness classifier satisfies the category-disjointness laws. -/
theorem sampleClassifier_lawful : LawfulCharClassifier sampleClassifier := by
  refine ⟨?_, ?_, ?_, ?_, ?_, ?_⟩ <;> intro c h <;> rw [Bool.eq_false_iff] <;>
    intro h2
  · simp only [sampleClassifier, Bool.and_eq_true, decide_eq_true_eq] at h h2
    omega
  · simp only [sampleClassifier, Bool.and_eq_true, decide_eq_true_eq] at h h2
    omega
  · simp only [sampleClassifier, Bool.and_eq_true, decide_eq_true_eq] at h h2
    omega
  · simp [sampleClassifier] at h h2
    omega
  · simp [sampleClassifier] at h h2
    omega
  · simp [sampleClassifier] at h h2
    omega

/-- One loop iteration accumulates the uppercase flag. -/
theorem scanStep_hasUpper (cc : CharClassifier) (f : PasswordFlags) (c : Char) :
    (scanStep cc f c).hasUpper = (f.hasUpper || cc.isUpper c) := by
  unfold scanStep
  cases hb1 : cc.isUpper c <;> cases hb2 : cc.isLower c <;>
    cases hb3 : cc.isDigit c <;> cases hb4 : (cc.isPunct c || cc.isSymbol c) <;>
    simp [hb1, hb2, hb3, hb4]

/-- One loop iteration accumulates the lowercase flag (a character the
switch files as uppercase is not lowercase, by the category laws). -/
theorem scanStep_hasLower (cc : CharClassifier) (hcc : LawfulCharClassifier cc)
    (f : PasswordFlags) (c : Char) :
    (scanStep cc f c).hasLower = (f.hasLower || cc.isLower c) := by
  unfold scanStep
  cases hb1 : cc.isUpper c
  · cases hb2 : cc.isLower c <;> cases hb3 : cc.isDigit c <;>
      cases hb4 : (cc.isPunct c || cc.isSymbol c) <;> simp [hb1, hb2, hb3, hb4]
  · have h2 := hcc.upper_not_lower c hb1
    simp [hb1, h2]

/-- One loop iteration accumulates the digit flag. -/
theorem scanStep_hasDigit (cc : CharClassifier) (hcc : LawfulCharClassifier cc)
    (f : PasswordFlags) (c : Char) :
    (scanStep cc f c).hasDigit = (f.hasDigit || cc.isDigit c) := by
  unfold scanStep
  cases hb1 : cc.isUpper c
  · cases hb2 : cc.isLower c
    · cases hb3 : cc.isDigit c <;> cases hb4 : (cc.isPunct c || cc.isSymbol c) <;>
        simp [hb1, hb2, hb3, hb4]
    · have h3 := hcc.lower_not_digit c hb2
      simp [hb1, hb2, h3]
  · have h3 := hcc.upper_not_digit c hb1
    simp [hb1, h3]

/-- One loop iteration accumulates the special-character flag. -/
theorem scanStep_hasSpecial (cc : CharClassifier) (hcc : LawfulCharClassifier cc)
    (f : PasswordFlags) (c : Char) :
    (scanStep cc f c).hasSpecial = (f.hasSpecial || (cc.isPunct c || cc.isSymbol c)) := by
  unfold scanStep
  cases hb4 : (cc.isPunct c || cc.isSymbol c)
  · cases hb1 : cc.isUpper c <;> cases hb2 : cc.isLower c <;>
      cases hb3 : cc.isDigit c <;> simp [hb1, hb2, hb3, hb4]
  · have h1 := hcc.special_not_upper c hb4
    have h2 := hcc.special_not_lower c hb4
    have h3 := hcc.special_not_digit c hb4
    simp [h1, h2, h3, hb4]

/-- The whole loop, from an arbitrary starting state, computes the four
flags as existential scans of the character list. -/
theorem scanFlags_go (cc : CharClassifier) (hcc : LawfulCharClassifier cc)
    (cs : List Char) (f : PasswordFlags) :
    ((cs.foldl (scanStep cc) f).hasUpper = (f.hasUpper || cs.any cc.isUpper)) ∧
    ((cs.foldl (scanStep cc) f).hasLower = (f.hasLower || cs.any cc.isLower)) ∧
    ((cs.foldl (scanStep cc) f).hasDigit = (f.hasDigit || cs.any cc.isDigit)) ∧
    ((cs.foldl (scanStep cc) f).hasSpecial =
      (f.hasSpecial || cs.any fun c => cc.isPunct c || cc.isSymbol c)) := by
  induction cs generalizing f with
  | nil => simp
  | cons c cs ih =>
    simp only [List.foldl_cons, List.any_cons]
    obtain ⟨i1, i2, i3, i4⟩ := ih (scanStep cc f c)
    refine ⟨?_, ?_, ?_, ?_⟩
    · rw [i1, scanStep_hasUpper]
      simp [Bool.or_assoc]
    · rw [i2, scanStep_hasLower cc hcc]
      simp [Bool.or_assoc]
    · rw [i3, scanStep_hasDigit cc hcc]
      simp [Bool.or_assoc]
    · rw [i4, scanStep_hasSpecial cc hcc]
      simp [Bool.or_assoc]

/-- The four flags of the password scan are the four existential scans. -/
theorem scanFlags_spec (cc : CharClassifier) (hcc : LawfulCharClassifier cc)
    (cs : List Char) :
    ((scanFlags cc cs).hasUpper = cs.any cc.isUpper) ∧
    ((scanFlags cc cs).hasLower = cs.any cc.isLower) ∧
    ((scanFlags cc cs).hasDigit = cs.any cc.isDigit) ∧
    ((scanFlags cc cs).hasSpecial = cs.any fun c => cc.isPunct c || cc.isSymbol c) := by
  have h := scanFlags_go cc hcc cs {}
  simpa [scanFlags] using h

/-- The password validator accepts exactly the passwords of byte length at
least 8 containing an uppercase letter, a lowercase letter, a digit and a
punctuation-or-symbol character, per the classifier. -/
theorem ValidatePassword_eq_none_iff (cc : CharClassifier)
    (hcc : LawfulCharClassifier cc) (password : String) :
    ValidatePassword cc password = none ↔
      (8 ≤ password.utf8ByteSize ∧
       password.data.any cc.isUpper = true ∧
       password.data.any cc.isLower = true ∧
       password.data.any cc.isDigit = true ∧
       password.data.any (fun c => cc.isPunct c || cc.isSymbol c) = true) := by
  obtain ⟨e1, e2, e3, e4⟩ := scanFlags_spec cc hcc password.data
  unfold ValidatePassword
  by_cases hlen : password.utf8ByteSize < 8
  · simp only [hlen, if_true, if_pos]
    constructor
    · intro h
      cases h
    · intro h
      omega
  · have hlen' : 8 ≤ password.utf8ByteSize := Nat.not_lt.mp hlen
    simp only [hlen, if_false]
    cases hU : password.data.any cc.isUpper <;>
      cases hL : password.data.any cc.isLower <;>
      cases hD : password.data.any cc.isDigit <;>
      cases hS : password.data.any (fun c => cc.isPunct c || cc.isSymbol c) <;>
      simp [e1, e2, e3, e4, hU, hL, hD, hS, hlen']

/-- **C8**: for any character classifier satisfying the Unicode
category-disjointness laws (as Go's `unicode` package does), the creation
path enforces the password policy before hashing: a password that is
shorter than 8 bytes or lacks an uppercase letter, a lowercase letter, a
digit or a punctuation-or-symbol character makes creation fail (with the
policy-violation message when the uniqueness pre-check passes) and leaves
the database unchanged; a conforming password (for a request that passes
the uniqueness check and role validation) is accepted, and the stored
record carries only the password's hash. -/
theorem C8_password_policy (cc : CharClassifier) (hcc : LawfulCharClassifier cc)
    (hash : String → String) (db : List User)
    (req : CreateUserRequest) (now : Nat) :
    ((req.password.utf8ByteSize < 8 ∨
      req.password.data.any cc.isUpper = false ∨
      req.password.data.any cc.isLower = false ∨
      req.password.data.any cc.isDigit = false ∨
      req.password.data.any (fun c => cc.isPunct c || cc.isSymbol c) = false) →
      ((CreateUser cc hash db req now).2 = db ∧
       (CheckUserExists db req.username req.email = false →
         ∃ e, CreateUser cc hash db req now =
           (.error ("failed to hash password: " ++ e), db)))) ∧
    ((8 ≤ req.password.utf8ByteSize ∧
      req.password.data.any cc.isUpper = true ∧
      req.password.data.any cc.isLower = true ∧
      req.password.data.any cc.isDigit = true ∧
      req.password.data.any (fun c => cc.isPunct c || cc.isSymbol c) = true) →
      CheckUserExists db req.username req.email = false →
      ValidateForRole (buildUser db req (hash req.password) now) = none →
      CreateUser cc hash db req now =
        (.ok (buildUser db req (hash req.password) now),
         db ++ [buildUser db req (hash req.password) now]) ∧
      (buildUser db req (hash req.password) now).passwordHash
        = hash req.password) := by
  constructor
  · intro hbad
    have hne : ValidatePassword cc req.password ≠ none := by
      rw [Ne, ValidatePassword_eq_none_iff cc hcc]
      intro hcon
      rcases hbad with hb | hb | hb | hb | hb
      · omega
      · rw [hcon.2.1] at hb; cases hb
      · rw [hcon.2.2.1] at hb; cases hb
      · rw [hcon.2.2.2.1] at hb; cases hb
      · rw [hcon.2.2.2.2] at hb; cases hb
    obtain ⟨e, he⟩ := Option.ne_none_iff_exists'.mp hne
    constructor
    · by_cases hex : CheckUserExists db req.username req.email = true
      · simp [CreateUser, hex]
      · simp [CreateUser, hex, HashPassword, he]
    · intro hnoconf
      exact ⟨e, by simp [CreateUser, hnoconf, HashPassword, he]⟩
  · intro hgood hnoconf hrole
    have hv : ValidatePassword cc req.password = none :=
      (ValidatePassword_eq_none_iff cc hcc req.password).mpr hgood
    exact ⟨by simp [CreateUser, hnoconf, HashPassword, hv, hrole], rfl⟩

/-- Witness for C8 (instantiating the classifier at a concrete lawful one
that agrees with Go's on the ASCII sample passwords): a short password is
rejected with a policy error and nothing is written; a conforming password
is accepted and stored as its hash. -/
theorem C8_password_policy_witness :
    (∃ e, CreateUser sampleClassifier demoHash [] badReq 0 =
      (.error ("failed to hash password: " ++ e), [])) ∧
    (CreateUser sampleClassifier demoHash [] goodReq 0 =
      (.ok (buildUser [] goodReq (demoHash "Passw0rd!") 0),
       [] ++ [buildUser [] goodReq (demoHash "Passw0rd!") 0]) ∧
     (buildUser [] goodReq (demoHash "Passw0rd!") 0).passwordHash
       = demoHash "Passw0rd!") :=
  ⟨((C8_password_policy sampleClassifier sampleClassifier_lawful demoHash []
      badReq 0).1 (Or.inl (by decide))).2 rfl,
   (C8_password_policy sampleClassifier sampleClassifier_lawful demoHash []
      goodReq 0).2
     ⟨by decide, by decide, by decide, by decide, by decide⟩ rfl rfl⟩

end UserService
